import Mathlib

/-!
Verification of the tooly tool-execution subsystem.

Shallow embedding of `src/spoonOS/agent.py` (ToolRegistry, SpoonOSAgent)
and `src/userAgent/spoonos_integration.py` (SpoonOSIntegration) in Lean 4,
with theorems settling the testable properties of the specification.

Modelling conventions:
  * Python dicts (string keyed) are association lists in insertion order;
    assignment to an existing key updates it in place, assignment to a new
    key appends at the end, matching CPython's ordered dicts.
  * Tool instances are opaque: the registry is parametric in the instance
    type (Python stores them as `Any`).  For execution, a tool instance is
    a function from the parameter dict to an outcome: a returned value, a
    raised exception (carrying `str(e)`), or a timeout of `asyncio.wait_for`.
  * The tool providers (the `spoon_toolkits` imports and tool constructors
    inside `_register_crypto_*_tools`) are external to the repository, so a
    category's provider is modelled as environment input: it either yields
    a list of (name, instance) pairs, fails with ImportError at the import,
    or raises a non-ImportError after some of its registrations.
  * The numeric timeout value only flows into one message text, so it is
    carried as its already-formatted text (Python's `f"{timeout}"`).
-/

namespace Tooly

/-- The `ToolCategory` enum of `src/spoonOS/agent.py`, in declaration order. -/
inductive ToolCategory where
  | CRYPTO_DATA
  | CRYPTO_POWERDATA
  | CRYPTO_EVM
  | CRYPTO_NEO
  | GITHUB
deriving DecidableEq, Repr

/-- The `.value` of each enum member. -/
def ToolCategory.value : ToolCategory → String
  | .CRYPTO_DATA => "crypto_data"
  | .CRYPTO_POWERDATA => "crypto_powerdata"
  | .CRYPTO_EVM => "crypto_evm"
  | .CRYPTO_NEO => "crypto_neo"
  | .GITHUB => "github"

/-- Iteration order of `for cat in ToolCategory` (enum declaration order). -/
def ToolCategory.all : List ToolCategory :=
  [.CRYPTO_DATA, .CRYPTO_POWERDATA, .CRYPTO_EVM, .CRYPTO_NEO, .GITHUB]

/-- Python values that flow through the executor: `None`, strings, integers,
and string-valued dicts (the shapes the embedded code paths inspect). -/
inductive PyValue where
  | pyNone
  | pyStr (s : String)
  | pyInt (n : Int)
  | pyDict (entries : List (String × String))
deriving DecidableEq, Repr

/-- A string-keyed Python dict in insertion order. -/
abbrev PyDict (α : Type) := List (String × α)

/-- `d[k]` / `d.get(k)`: first (unique) binding of `k`. -/
def dictGet {α : Type} (l : PyDict α) (k : String) : Option α :=
  match l with
  | [] => none
  | (k2, v) :: rest => if k2 = k then some v else dictGet rest k

/-- `k in d`. -/
def dictContains {α : Type} (l : PyDict α) (k : String) : Bool :=
  (dictGet l k).isSome

/-- `d[k] = v`: update in place when the key exists, else append. -/
def dictSet {α : Type} (l : PyDict α) (k : String) (v : α) : PyDict α :=
  if dictContains l k then
    l.map (fun p => if p.1 = k then (k, v) else p)
  else
    l ++ [(k, v)]

/-- `d.pop(k)` / `d.pop(k, default)`: remove the binding of `k` if present. -/
def dictPop {α : Type} (l : PyDict α) (k : String) : PyDict α :=
  l.filter (fun p => p.1 ≠ k)

/-- `ToolRegistry` of `src/spoonOS/agent.py`: the `_tools` dict
(name → instance, insertion ordered) and the `_categories` dict
(every category is a key from construction on). -/
structure ToolRegistry (α : Type) where
  tools : PyDict α
  categories : ToolCategory → List String

/-- `ToolRegistry.__init__`: empty tools dict, an empty list per category. -/
def ToolRegistry.empty {α : Type} : ToolRegistry α :=
  { tools := [], categories := fun _ => [] }

/-- `ToolRegistry.register_tool`: overwrite the name → instance entry
(a warning is logged when overwriting), append the name to the category's
list only when absent. -/
def ToolRegistry.register_tool {α : Type} (r : ToolRegistry α)
    (tool_name : String) (tool_instance : α) (category : ToolCategory) :
    ToolRegistry α :=
  { tools := dictSet r.tools tool_name tool_instance,
    categories := fun c =>
      if c = category then
        if tool_name ∈ r.categories category then r.categories category
        else r.categories category ++ [tool_name]
      else r.categories c }

/-- `ToolRegistry.get_tool`: `self._tools.get(tool_name)`. -/
def ToolRegistry.get_tool {α : Type} (r : ToolRegistry α)
    (tool_name : String) : Option α :=
  dictGet r.tools tool_name

/-- `ToolRegistry.list_tools`: the category's list when a category is given
(enum members are truthy), else all keys of the tools dict in order. -/
def ToolRegistry.list_tools {α : Type} (r : ToolRegistry α)
    (category : Option ToolCategory) : List String :=
  match category with
  | some c => r.categories c
  | none => r.tools.map Prod.fst

/-- `ToolRegistry.get_tool_count`: `len(self._tools)`. -/
def ToolRegistry.get_tool_count {α : Type} (r : ToolRegistry α) : Nat :=
  r.tools.length

/-- `ToolExecutionResult` of `src/spoonOS/agent.py` (dataclass defaults:
`data=None`, `error=None`, `metadata=None`). -/
structure ToolExecutionResult where
  success : Bool
  tool_name : String
  category : String
  data : PyValue := PyValue.pyNone
  error : Option String := none
  metadata : Option (PyDict PyValue) := none
deriving DecidableEq, Repr

/-- Shape of the value a tool's `execute` returns: either a structured
result exposing an `output` attribute (with the `error` attribute present
or absent; when present its value may be Python `None` or a string), or
any other value, which has no `output` attribute. -/
inductive PyResult where
  | structured (output : PyValue) (errorAttr : Option (Option String))
  | raw (v : PyValue)
deriving DecidableEq, Repr

/-- Outcome of awaiting `tool.execute(**params)` under `asyncio.wait_for`:
a returned value, a raised exception (carrying `str(e)`), or a timeout. -/
inductive ToolOutcome where
  | ok (result : PyResult)
  | raises (msg : String)
  | timesOut
deriving DecidableEq, Repr

/-- A registered tool instance, as the executor sees it: its `execute`
entry point.  (The class instances registered by the agent are truthy, so
`if not tool` in `execute_tool` is the `None` check.) -/
structure Tool where
  run : PyDict PyValue → ToolOutcome

/-- `SpoonOSAgent` state: its registry and the `_initialized` flag. -/
structure SpoonOSAgent (α : Type) where
  registry : ToolRegistry α
  initialized : Bool

/-- `SpoonOSAgent.__init__`: fresh registry, not initialized. -/
def SpoonOSAgent.new {α : Type} : SpoonOSAgent α :=
  { registry := ToolRegistry.empty, initialized := false }

/-- A single-quote character, for Python `repr` of strings. -/
def sq : String := (Char.ofNat 39).toString

/-- Python `repr` of a plain string (single quotes). -/
def pyQuote (s : String) : String := sq ++ s ++ sq

/-- Python's `", ".join`. -/
def joinComma : List String → String
  | [] => ""
  | [x] => x
  | x :: y :: rest => x ++ ", " ++ joinComma (y :: rest)

/-- Python `f"{names}"` for a list of strings. -/
def pyListRepr (l : List String) : String :=
  "[" ++ joinComma (l.map pyQuote) ++ "]"

/-- The `execute_tool` message `f"Tool '{tool_name}' not found. Available
tools: {available_tools}"`. -/
def notFoundMsg (tool_name : String) (available : List String) : String :=
  "Tool " ++ pyQuote tool_name ++ " not found. Available tools: " ++
    pyListRepr available

/-- The category-resolution scan of `execute_tool` / `get_tool_info`:
first category whose list contains the name, else `"unknown"`. -/
def resolveCategory {α : Type} (r : ToolRegistry α) (tool_name : String) :
    String :=
  match ToolCategory.all.find? (fun c => tool_name ∈ r.categories c) with
  | some c => c.value
  | none => "unknown"

/-- `SpoonOSAgent.execute_tool` of `src/spoonOS/agent.py`.
`timeoutText` is the formatted timeout value used in the timeout message. -/
def execute_tool (agent : SpoonOSAgent Tool) (tool_name : String)
    (parameters : Option (PyDict PyValue)) (timeoutText : String) :
    ToolExecutionResult :=
  if agent.initialized = false then
    { success := false, tool_name := tool_name, category := "unknown",
      error := some "Agent not initialized. Call initialize() first." }
  else
    match agent.registry.get_tool tool_name with
    | none =>
      { success := false, tool_name := tool_name, category := "unknown",
        error := some (notFoundMsg tool_name (agent.registry.list_tools none)) }
    | some tool =>
      let category := resolveCategory agent.registry tool_name
      match tool.run (parameters.getD []) with
      | ToolOutcome.ok (PyResult.structured output errAttr) =>
        { success := match errAttr with
            | none => true
            | some e => e.isNone,
          tool_name := tool_name, category := category,
          data := output,
          error := match errAttr with
            | none => none
            | some e => e }
      | ToolOutcome.ok (PyResult.raw v) =>
        { success := true, tool_name := tool_name, category := category,
          data := v }
      | ToolOutcome.timesOut =>
        { success := false, tool_name := tool_name, category := category,
          error := some ("Tool execution timed out after " ++ timeoutText ++
            " seconds") }
      | ToolOutcome.raises msg =>
        { success := false, tool_name := tool_name, category := category,
          error := some ("Tool execution failed: " ++ msg) }

/-- A batch command: `cmd.get("tool_name")`, `cmd.get("parameters")`,
`cmd.get("timeout", 30.0)` (the timeout as formatted text). -/
structure BatchCommand where
  tool_name : String
  parameters : Option (PyDict PyValue)
  timeoutText : String := "30.0"
deriving Inhabited

/-- `SpoonOSAgent.execute_batch`.  The sequential branch is the
result-accumulating loop; the parallel branch is `asyncio.gather` over the
per-command tasks with `return_exceptions=True`, whose result list is in
task (= input) order — with the deterministic embedded `execute_tool`,
which never raises, that gather is the in-order map. -/
def execute_batch (agent : SpoonOSAgent Tool) (commands : List BatchCommand)
    (parallel : Bool) : List ToolExecutionResult :=
  if parallel then
    commands.map (fun cmd =>
      execute_tool agent cmd.tool_name cmd.parameters cmd.timeoutText)
  else
    commands.foldl (fun results cmd =>
      results ++ [execute_tool agent cmd.tool_name cmd.parameters cmd.timeoutText]) []

/-!  Initialization.

The per-category registrars import tool classes from `spoon_toolkits` and
construct instances; both are external to this repository, so a category's
provider is environment input (`ProviderResult`). -/

/-- What a category's external provider does when the registrar runs:
the import succeeds and every constructor yields an instance (`avail`,
with the (name, instance) pairs in registration order); the import fails
with ImportError (`importError`); or a non-ImportError failure occurs
after some of the registrations happened (`raisesAfter`). -/
inductive ProviderResult (α : Type) where
  | avail (tools : List (String × α))
  | importError
  | raisesAfter (registered : List (String × α))

/-- The environment: one provider behaviour per category. -/
structure ToolProviders (α : Type) where
  provide : ToolCategory → ProviderResult α

/-- Register a provider's (name, instance) pairs in order. -/
def registerAll {α : Type} (r : ToolRegistry α)
    (ts : List (String × α)) (category : ToolCategory) : ToolRegistry α :=
  ts.foldl (fun acc p => acc.register_tool p.1 p.2 category) r

/-- `SpoonOSAgent._register_category_tools` together with the category's
registrar: returns the updated registry and whether a failure was raised.
The registrars for the optional categories (`CRYPTO_POWERDATA`,
`CRYPTO_EVM`, `CRYPTO_NEO`, `GITHUB`) catch ImportError and only log a
warning; `_register_crypto_data_tools` re-raises it.  Any raised failure
is logged by `_register_category_tools` and re-raised. -/
def register_category_tools {α : Type} (env : ToolProviders α)
    (category : ToolCategory) (r : ToolRegistry α) : ToolRegistry α × Bool :=
  match env.provide category with
  | ProviderResult.avail ts => (registerAll r ts category, false)
  | ProviderResult.importError =>
      if category = ToolCategory.CRYPTO_DATA then (r, true) else (r, false)
  | ProviderResult.raisesAfter ts => (registerAll r ts category, true)

/-- The `for category in categories_to_init` loop of `initialize`: a raised
failure aborts the loop (the registrations already made stay in the
registry object) and propagates. -/
def initializeLoop {α : Type} (env : ToolProviders α)
    (cats : List ToolCategory) (r : ToolRegistry α) : ToolRegistry α × Bool :=
  match cats with
  | [] => (r, false)
  | c :: rest =>
    let step := register_category_tools env c r
    if step.2 then (step.1, true) else initializeLoop env rest step.1

/-- `SpoonOSAgent.initialize`.  Returns the agent state and whether a
failure propagated to the caller.  `tool_categories or
[ToolCategory.CRYPTO_DATA]` replaces both `None` and the (falsy) empty
list by the default.  When already initialized it logs a warning and
returns at once.  `_initialized` is set only after the loop completes. -/
def initializeAgent {α : Type} (env : ToolProviders α)
    (agent : SpoonOSAgent α) (tool_categories : Option (List ToolCategory)) :
    SpoonOSAgent α × Bool :=
  if agent.initialized then (agent, false)
  else
    let categories_to_init :=
      match tool_categories with
      | none => [ToolCategory.CRYPTO_DATA]
      | some l => if l.isEmpty then [ToolCategory.CRYPTO_DATA] else l
    let run := initializeLoop env categories_to_init agent.registry
    if run.2 then ({ registry := run.1, initialized := false }, true)
    else ({ registry := run.1, initialized := true }, false)

/-!  Integration layer: `src/userAgent/spoonos_integration.py`.

Intent parameter values are modelled as strings (the embedded code paths
only ever copy them, upper-case them, or splice them into messages; the
numeric defaults of `_fallback_response`, such as `params.get('amount', 1)`,
are carried as their formatted text). -/

/-- `Intent` dataclass: action and parameters.  The `confidence` field (a
float) and `reasoning` are never read by the embedded operations. -/
structure Intent where
  action : String
  parameters : PyDict String
  reasoning : String := ""

/-- `SpoonOSResponse` dataclass. -/
structure SpoonOSResponse where
  success : Bool
  output : String
  follow_up_questions : Option (List String) := none
deriving DecidableEq, Repr

/-- `SpoonOSIntegration._init_tool_mappings`. -/
def init_tool_mappings : PyDict String :=
  [("check_balance", "evm_balance"),
   ("get_balance", "evm_balance"),
   ("get_transactions", "get_24h_stats"),
   ("get_token_price", "get_token_price"),
   ("get_price", "get_token_price"),
   ("price_info", "get_token_price"),
   ("get_ohlcv", "crypto_powerdata_cex"),
   ("get_kline", "get_kline_data"),
   ("get_candles", "crypto_powerdata_cex"),
   ("get_kline_data", "get_kline_data"),
   ("estimate_gas", "evm_swap_quote"),
   ("gas_estimate", "evm_swap_quote"),
   ("swap_tokens", "evm_swap"),
   ("token_swap", "evm_swap"),
   ("execute_swap", "evm_swap"),
   ("execute_contract", "evm_transfer"),
   ("contract_call", "evm_transfer"),
   ("get_nft_info", "get_24h_stats"),
   ("nft_info", "get_24h_stats"),
   ("general_info", "get_token_price"),
   ("market_data", "get_kline_data")]

/-- Python `str.upper()` (ASCII, which is all the embedded code feeds it). -/
def pyUpper (s : String) : String := String.mk (s.data.map Char.toUpper)

/-- Python `str.lower()` (ASCII). -/
def pyLower (s : String) : String := String.mk (s.data.map Char.toLower)

/-- Python `pat in s` for strings: `s.splitOn pat` has a second piece
exactly when `pat` occurs in `s` (for nonempty `pat`). -/
def strContainsSub (s pat : String) : Bool :=
  (s.splitOn pat).length ≥ 2

/-- `SpoonOSIntegration._map_intent_to_tool`: table lookup, then the
keyword heuristic (the mapped names are nonempty, so `if not tool_name`
is the `None` check). -/
def map_intent_to_tool (action : String) : String :=
  match dictGet init_tool_mappings action with
  | some t => t
  | none =>
    if strContainsSub (pyLower action) "balance" then "evm_balance"
    else if strContainsSub (pyLower action) "price" then "get_token_price"
    else "get_token_price"

/-- The trading-pair normalization of `_prepare_tool_parameters` for
`get_token_price`, applied to an upper-cased bare token. -/
def toTradingPair (token : String) : String :=
  if token = "ETH" ∨ token = "ETHEREUM" then "ETH-USDC"
  else if token = "BTC" ∨ token = "BITCOIN" then "BTC-USDT"
  else token ++ "-USDC"

/-- `SpoonOSIntegration._prepare_tool_parameters`. -/
def prepare_tool_parameters (intent : Intent) (tool_name : String) :
    PyDict String :=
  let params := intent.parameters
  if tool_name = "evm_balance" then
    let params :=
      match dictGet params "wallet_address" with
      | some v => dictSet (dictPop params "wallet_address") "address" v
      | none => params
    dictPop (dictPop params "token") "symbol"
  else if tool_name = "get_token_price" then
    let params :=
      if dictContains params "token" && !(dictContains params "symbol") then
        match dictGet params "token" with
        | some tv =>
          dictSet (dictPop params "token") "symbol" (toTradingPair (pyUpper tv))
        | none => params
      else if dictContains params "symbol" &&
          !(strContainsSub ((dictGet params "symbol").getD "") "-") then
        match dictGet params "symbol" with
        | some sv => dictSet params "symbol" (toTradingPair (pyUpper sv))
        | none => params
      else params
    dictPop (dictPop (dictPop params "address") "vs_currency") "wallet_address"
  else if tool_name = "get_kline_data" then
    let params :=
      match dictGet params "symbol" with
      | some symbol =>
        dictSet params "symbol"
          (if strContainsSub symbol "/" then symbol.replace "/" "-" else symbol)
      | none => params
    let params :=
      match dictGet params "interval" with
      | some v => dictSet (dictPop params "interval") "timeframe" v
      | none =>
        if dictContains params "timeframe" then params
        else dictSet params "timeframe" "1h"
    dictPop (dictPop params "exchange") "address"
  else params

/-- The fixed disclaimer `_fallback_response` appends to its output. -/
def fallbackDisclaimer : String :=
  "\n\n⚠️ Note: This is a fallback response. Real SpoonOS integration unavailable."

/-- The output `_fallback_response` computes before appending the
disclaimer: the mock payload keyed by the action, with the generic
templated message as default. -/
def fallback_output_core (intent : Intent) : String :=
  let action := intent.action
  let params := intent.parameters
  let fallback_responses : PyDict String :=
    [("check_balance", "💰 Mock Balance: 2.5 ETH (~$6,250) for address " ++
        ((dictGet params "address").getD "your wallet")),
     ("get_token_price", "💲 Mock Price: ETH/USDC = $2,500.00 (+2.5% 24h)"),
     ("estimate_gas", "⛽ Mock Gas: ~21,000 units ($3.50 USD)"),
     ("swap_tokens", "🔄 Mock Swap: Would swap " ++
        ((dictGet params "amount").getD "1") ++ " " ++
        ((dictGet params "from_token").getD "ETH") ++ " → " ++
        ((dictGet params "to_token").getD "USDC")),
     ("get_transactions", "📋 Mock Transactions: Latest 5 transactions would be shown here"),
     ("execute_contract", "📄 Mock Contract: Contract interaction would be executed"),
     ("get_nft_info", "🖼️ Mock NFT: NFT collection info would be displayed")]
  (dictGet fallback_responses action).getD ("🤖 Mock response for: " ++ action)

/-- `SpoonOSIntegration._fallback_response`. -/
def fallback_response (intent : Intent) : SpoonOSResponse :=
  { success := true,
    output := fallback_output_core intent ++ fallbackDisclaimer,
    follow_up_questions := some ["Would you like to try another Web3 operation?"] }

/-- Python `str()` of the modelled values, for f-string splices. -/
def pyShow : PyValue → String
  | PyValue.pyNone => "None"
  | PyValue.pyStr s => s
  | PyValue.pyInt n => toString n
  | PyValue.pyDict l =>
    "\x7b" ++ joinComma (l.map (fun p => pyQuote p.1 ++ ": " ++ pyQuote p.2)) ++ "\x7d"

/-- `isinstance(data, dict)` on the modelled values. -/
def PyValue.isDict : PyValue → Bool
  | PyValue.pyDict _ => true
  | _ => false

/-- `SpoonOSIntegration._format_success_output`. -/
def format_success_output (result : ToolExecutionResult) (action : String) :
    String :=
  let data := result.data
  if action = "check_balance" ∨ action = "get_balance" then
    if data.isDict && strContainsSub (pyShow data) "balance" then
      "💰 Wallet Balance: " ++ pyShow data
    else "💰 Balance information: " ++ pyShow data
  else if action = "get_token_price" ∨ action = "price_info" then
    if data.isDict then "💲 Token Price: " ++ pyShow data
    else "💲 Current price: " ++ pyShow data
  else if action = "swap_tokens" ∨ action = "token_swap" then
    "🔄 Swap Result: " ++ pyShow data
  else if action = "estimate_gas" ∨ action = "gas_estimate" then
    "⛽ Gas Estimate: " ++ pyShow data
  else if action = "get_transactions" then
    "📋 Transaction Data: " ++ pyShow data
  else
    "✅ " ++ result.tool_name ++ " Result: " ++ pyShow data

/-- `SpoonOSIntegration._generate_follow_up_questions`. -/
def generate_follow_up_questions (action : String)
    (_result : ToolExecutionResult) : Option (List String) :=
  if action = "check_balance" then
    some ["Would you like to see your transaction history?",
          "Do you want to check other token balances?"]
  else if action = "get_token_price" then
    some ["Would you like to see the 24h price chart?",
          "Do you want to check other token prices?"]
  else if action = "estimate_gas" then
    some ["Would you like me to execute this transaction?",
          "Do you want to see alternative routes?"]
  else none

/-- `SpoonOSIntegration._format_spoonos_result`.  `result.error or
'Unknown error occurred'` treats both `None` and the empty string as
missing. -/
def format_spoonos_result (result : ToolExecutionResult) (intent : Intent) :
    SpoonOSResponse :=
  if result.success then
    { success := true,
      output := format_success_output result intent.action,
      follow_up_questions := generate_follow_up_questions intent.action result }
  else
    { success := false,
      output := "❌ " ++
        (match result.error with
         | some e => if e = "" then "Unknown error occurred" else e
         | none => "Unknown error occurred"),
      follow_up_questions := some ["Would you like to try with different parameters?"] }

/-- `SpoonOSIntegration` state: the `agent` slot (initially `None`) and
the `is_connected` flag. -/
structure SpoonOSIntegration where
  agent : Option (SpoonOSAgent Tool)
  is_connected : Bool

/-- Intent parameters handed to `execute_tool` (string values as Python
string values). -/
def paramsToPy (l : PyDict String) : PyDict PyValue :=
  l.map (fun p => (p.1, PyValue.pyStr p.2))

/-- `SpoonOSIntegration.send_intent`.  The embedded connected path cannot
raise, so the surrounding `except` branch is unreachable here. -/
def send_intent (integ : SpoonOSIntegration) (intent : Intent) :
    SpoonOSResponse :=
  if !integ.is_connected || integ.agent.isNone then
    fallback_response intent
  else
    match integ.agent with
    | some ag =>
      let tool_name := map_intent_to_tool intent.action
      let tool_params := prepare_tool_parameters intent tool_name
      let result := execute_tool ag tool_name (some (paramsToPy tool_params)) "30.0"
      format_spoonos_result result intent
    | none => fallback_response intent

/-!  Helper lemmas about the dict model. -/

theorem dictGet_append {α : Type} (l1 l2 : PyDict α) (k : String) :
    dictGet (l1 ++ l2) k =
      match dictGet l1 k with
      | some v => some v
      | none => dictGet l2 k := by
  induction l1 with
  | nil => simp [dictGet]
  | cons p t ih =>
    simp only [List.cons_append, dictGet]
    by_cases h : p.1 = k <;> simp [h, ih]

theorem dictGet_replace_self {α : Type} (l : PyDict α) (k : String) (v : α) :
    dictGet (l.map fun p => if p.1 = k then (k, v) else p) k =
      if dictContains l k then some v else none := by
  induction l with
  | nil => simp [dictGet, dictContains]
  | cons p t ih =>
    simp only [List.map_cons]
    by_cases h : p.1 = k
    · rw [if_pos h]
      simp [dictGet, dictContains, h]
    · rw [if_neg h]
      simp [dictGet, dictContains, h, ih]

theorem dictGet_replace_ne {α : Type} (l : PyDict α) (k k2 : String) (v : α)
    (h : k2 ≠ k) :
    dictGet (l.map fun p => if p.1 = k then (k, v) else p) k2 = dictGet l k2 := by
  induction l with
  | nil => simp [dictGet]
  | cons p t ih =>
    simp only [List.map_cons]
    by_cases hp : p.1 = k
    · rw [if_pos hp]
      have hk : k ≠ k2 := fun hk => h hk.symm
      simp [dictGet, hk, hp, ih]
    · rw [if_neg hp]
      by_cases hp2 : p.1 = k2 <;> simp [dictGet, hp2, ih]

theorem dictGet_none_of_not_contains {α : Type} (l : PyDict α) (k : String)
    (h : dictContains l k = false) : dictGet l k = none := by
  unfold dictContains at h
  cases hg : dictGet l k with
  | none => rfl
  | some v => rw [hg] at h; simp at h

/-- The characterizing equation of `dictSet`. -/
theorem dictGet_dictSet {α : Type} (l : PyDict α) (k k2 : String) (v : α) :
    dictGet (dictSet l k v) k2 = if k2 = k then some v else dictGet l k2 := by
  unfold dictSet
  by_cases hc : dictContains l k
  · simp only [hc, if_true]
    by_cases h2 : k2 = k
    · subst h2; simp [dictGet_replace_self, hc]
    · simp [dictGet_replace_ne l k k2 v h2, h2]
  · simp only [hc, Bool.false_eq_true, if_false, dictGet_append]
    by_cases h2 : k2 = k
    · subst h2
      simp [dictGet_none_of_not_contains l k2 (by simpa using hc), dictGet]
    · cases hg : dictGet l k2 with
      | some w => simp [hg, h2]
      | none =>
        have : k ≠ k2 := fun hk => h2 hk.symm
        simp [hg, h2, dictGet, this]

/-!  Helper lemmas about the registry. -/

theorem get_tool_register_self {α : Type} (r : ToolRegistry α)
    (n : String) (i : α) (c : ToolCategory) :
    (r.register_tool n i c).get_tool n = some i := by
  simp [ToolRegistry.register_tool, ToolRegistry.get_tool, dictGet_dictSet]

theorem get_tool_register_ne {α : Type} (r : ToolRegistry α)
    (n m : String) (i : α) (c : ToolCategory) (h : m ≠ n) :
    (r.register_tool n i c).get_tool m = r.get_tool m := by
  simp [ToolRegistry.register_tool, ToolRegistry.get_tool, dictGet_dictSet, h]

theorem get_tool_register_isSome {α : Type} (r : ToolRegistry α)
    (n m : String) (i : α) (c : ToolCategory)
    (h : (r.get_tool m).isSome = true) :
    ((r.register_tool n i c).get_tool m).isSome = true := by
  by_cases hm : m = n
  · subst hm; simp [get_tool_register_self]
  · rw [get_tool_register_ne r n m i c hm]; exact h

theorem mem_categories_register {α : Type} (r : ToolRegistry α)
    (n : String) (i : α) (c : ToolCategory) (m : String) (c2 : ToolCategory) :
    m ∈ (r.register_tool n i c).categories c2 ↔
      m ∈ r.categories c2 ∨ (m = n ∧ c2 = c) := by
  simp only [ToolRegistry.register_tool]
  by_cases h : c2 = c
  · subst h
    by_cases hm : n ∈ r.categories c2
    · simp only [if_pos rfl, hm, if_true]
      constructor
      · exact fun h2 => Or.inl h2
      · rintro (h2 | ⟨h2, -⟩)
        · exact h2
        · exact h2 ▸ hm
    · simp [hm]
  · simp [h]

theorem nodup_categories_register {α : Type} (r : ToolRegistry α)
    (n : String) (i : α) (c : ToolCategory) (c2 : ToolCategory)
    (h : (r.categories c2).Nodup) :
    ((r.register_tool n i c).categories c2).Nodup := by
  simp only [ToolRegistry.register_tool]
  by_cases hc : c2 = c
  · subst hc
    by_cases hm : n ∈ r.categories c2
    · simp [hm, h]
    · simp only [if_pos rfl, hm, if_false, if_true]
      rw [List.nodup_append]
      refine ⟨h, List.nodup_singleton n, fun a ha han => hm ?_⟩
      have : a = n := by simpa using han
      exact this ▸ ha
  · simp [hc, h]

/-- One `register_tool` call, as data: the arguments of the call. -/
structure RegEvent (α : Type) where
  name : String
  inst : α
  cat : ToolCategory

/-- Run a sequence of `register_tool` calls against a registry. -/
def applyEvents {α : Type} (r : ToolRegistry α) (evs : List (RegEvent α)) :
    ToolRegistry α :=
  evs.foldl (fun acc e => acc.register_tool e.name e.inst e.cat) r

theorem applyEvents_cons {α : Type} (r : ToolRegistry α) (e : RegEvent α)
    (evs : List (RegEvent α)) :
    applyEvents r (e :: evs) = applyEvents (r.register_tool e.name e.inst e.cat) evs := rfl

theorem applyEvents_append {α : Type} (r : ToolRegistry α)
    (l1 l2 : List (RegEvent α)) :
    applyEvents r (l1 ++ l2) = applyEvents (applyEvents r l1) l2 :=
  List.foldl_append _ _ l1 l2

theorem get_tool_applyEvents_of_not_named {α : Type} (r : ToolRegistry α)
    (evs : List (RegEvent α)) (n : String) (h : ∀ e ∈ evs, e.name ≠ n) :
    (applyEvents r evs).get_tool n = r.get_tool n := by
  induction evs generalizing r with
  | nil => rfl
  | cons e t ih =>
    rw [applyEvents_cons, ih _ (fun e2 he2 => h e2 (List.mem_cons_of_mem e he2)),
      get_tool_register_ne]
    exact fun hn => h e (List.mem_cons_self e t) hn.symm

theorem mem_categories_applyEvents {α : Type} (r : ToolRegistry α)
    (evs : List (RegEvent α)) (m : String) (c : ToolCategory) :
    m ∈ (applyEvents r evs).categories c ↔
      m ∈ r.categories c ∨ ∃ e ∈ evs, m = e.name ∧ c = e.cat := by
  induction evs generalizing r with
  | nil => simp [applyEvents]
  | cons e t ih =>
    rw [applyEvents_cons, ih]
    rw [mem_categories_register]
    simp only [List.mem_cons]
    constructor
    · rintro ((h | ⟨h1, h2⟩) | ⟨e2, he2, h1, h2⟩)
      · exact Or.inl h
      · exact Or.inr ⟨e, Or.inl rfl, h1, h2⟩
      · exact Or.inr ⟨e2, Or.inr he2, h1, h2⟩
    · rintro (h | ⟨e2, (he2 | he2), h1, h2⟩)
      · exact Or.inl (Or.inl h)
      · exact Or.inl (Or.inr ⟨he2 ▸ h1, he2 ▸ h2⟩)
      · exact Or.inr ⟨e2, he2, h1, h2⟩

theorem nodup_categories_applyEvents {α : Type} (r : ToolRegistry α)
    (evs : List (RegEvent α)) (c : ToolCategory)
    (h : (r.categories c).Nodup) :
    ((applyEvents r evs).categories c).Nodup := by
  induction evs generalizing r with
  | nil => exact h
  | cons e t ih =>
    rw [applyEvents_cons]
    exact ih _ (nodup_categories_register r e.name e.inst e.cat c h)

/-!  Helper lemmas about initialization. -/

/-- Whether a category's registration raises (depends only on the
provider, not on the registry state). -/
def categoryRaises {α : Type} (env : ToolProviders α) (c : ToolCategory) : Bool :=
  (register_category_tools env c ToolRegistry.empty).2

theorem register_category_tools_snd {α : Type} (env : ToolProviders α)
    (c : ToolCategory) (r : ToolRegistry α) :
    (register_category_tools env c r).2 = categoryRaises env c := by
  unfold categoryRaises register_category_tools
  cases env.provide c with
  | avail ts => simp
  | importError => by_cases hc : c = ToolCategory.CRYPTO_DATA <;> simp [hc]
  | raisesAfter ts => simp

theorem get_tool_registerAll_isSome {α : Type} (r : ToolRegistry α)
    (ts : List (String × α)) (c : ToolCategory) (m : String)
    (h : (r.get_tool m).isSome = true) :
    ((registerAll r ts c).get_tool m).isSome = true := by
  induction ts generalizing r with
  | nil => exact h
  | cons p t ih =>
    exact ih _ (get_tool_register_isSome r p.1 m p.2 c h)

theorem get_tool_register_category_isSome {α : Type} (env : ToolProviders α)
    (c : ToolCategory) (r : ToolRegistry α) (m : String)
    (h : (r.get_tool m).isSome = true) :
    (((register_category_tools env c r).1).get_tool m).isSome = true := by
  unfold register_category_tools
  cases env.provide c with
  | avail ts => exact get_tool_registerAll_isSome r ts c m h
  | importError => by_cases hc : c = ToolCategory.CRYPTO_DATA <;> simp [hc, h]
  | raisesAfter ts => exact get_tool_registerAll_isSome r ts c m h

theorem initializeLoop_append_no_raise {α : Type} (env : ToolProviders α)
    (pre rest : List ToolCategory) (r : ToolRegistry α)
    (hpre : ∀ c2 ∈ pre, categoryRaises env c2 = false) :
    initializeLoop env (pre ++ rest) r =
      initializeLoop env rest (initializeLoop env pre r).1 := by
  induction pre generalizing r with
  | nil => simp [initializeLoop]
  | cons c t ih =>
    have hc : categoryRaises env c = false := hpre c (List.mem_cons_self c t)
    simp only [List.cons_append, initializeLoop,
      register_category_tools_snd, hc, Bool.false_eq_true, if_false]
    exact ih _ (fun c2 h2 => hpre c2 (List.mem_cons_of_mem c h2))

theorem initializeLoop_head_raise {α : Type} (env : ToolProviders α)
    (c : ToolCategory) (post : List ToolCategory) (r : ToolRegistry α)
    (hc : categoryRaises env c = true) :
    initializeLoop env (c :: post) r = ((register_category_tools env c r).1, true) := by
  simp [initializeLoop, register_category_tools_snd, hc]

/-!  Helper lemmas about the not-found message. -/

theorem joinComma_cons_cons (x y : String) (rest : List String) :
    joinComma (x :: y :: rest) = x ++ ", " ++ joinComma (y :: rest) := rfl

theorem joinComma_mem (l : List String) (n : String) (h : n ∈ l) :
    ∃ a b, joinComma (l.map pyQuote) = a ++ (pyQuote n ++ b) := by
  induction l with
  | nil => cases h
  | cons x xs ih =>
    rcases List.mem_cons.mp h with h1 | h1
    · subst h1
      cases xs with
      | nil =>
        exact ⟨"", "", by simp [joinComma, String.append_empty, String.empty_append]⟩
      | cons y ys =>
        refine ⟨"", ", " ++ joinComma ((y :: ys).map pyQuote), ?_⟩
        simp [joinComma_cons_cons, String.append_assoc, String.empty_append]
    · obtain ⟨a, b, hab⟩ := ih h1
      cases xs with
      | nil => cases h1
      | cons y ys =>
        refine ⟨pyQuote x ++ ", " ++ a, b, ?_⟩
        simp only [List.map_cons] at hab ⊢
        rw [joinComma_cons_cons, hab]
        simp [String.append_assoc]

theorem notFoundMsg_mem (t : String) (l : List String) (n : String)
    (h : n ∈ l) : ∃ a b, notFoundMsg t l = a ++ (n ++ b) := by
  obtain ⟨a, b, hab⟩ := joinComma_mem l n h
  refine ⟨"Tool " ++ (pyQuote t ++ (" not found. Available tools: " ++
      ("[" ++ (a ++ sq)))), sq ++ (b ++ "]"), ?_⟩
  rw [notFoundMsg, pyListRepr, hab]
  simp [pyQuote, String.append_assoc]

/-!  Helper lemma about batch accumulation. -/

theorem foldl_append_eq_map {β γ : Type} (f : β → γ) (l : List β) (acc : List γ) :
    l.foldl (fun results cmd => results ++ [f cmd]) acc = acc ++ l.map f := by
  induction l generalizing acc with
  | nil => simp
  | cons x xs ih => simp [List.foldl_cons, ih]

/-!  Concrete fixtures for witnesses. -/

/-- A tool returning a plain (non-structured) value. -/
def rawTool : Tool := ⟨fun _ => ToolOutcome.ok (PyResult.raw (PyValue.pyStr "ok"))⟩

/-- A tool that raises. -/
def raisingTool : Tool := ⟨fun _ => ToolOutcome.raises "boom"⟩

/-- A tool returning a structured result with `output` and `error=None`. -/
def structTool : Tool :=
  ⟨fun _ => ToolOutcome.ok (PyResult.structured (PyValue.pyStr "42") (some none))⟩

/-- An initialized agent with the three fixture tools registered. -/
def demoAgent : SpoonOSAgent Tool :=
  { registry :=
      ((ToolRegistry.empty.register_tool "a" rawTool ToolCategory.CRYPTO_DATA).register_tool
        "b" raisingTool ToolCategory.CRYPTO_DATA).register_tool
        "s" structTool ToolCategory.CRYPTO_DATA,
    initialized := true }

/-- C2: on an initialized executor, `execute_tool` always returns a
`ToolExecutionResult` (the embedding is a total function, so no failure
reaches the caller); for an unregistered name it returns `success=false`
with an error message in which every currently registered tool name
occurs (the message splices in the full registered-name list), and when
the invoked tool raises, the failure is caught and returned as a failed
result carrying the tool's failure text. -/
theorem execute_tool_inband_errors (ag : SpoonOSAgent Tool) (tool_name : String)
    (params : Option (PyDict PyValue)) (tt : String)
    (hinit : ag.initialized = true) :
    (ag.registry.get_tool tool_name = none →
      (execute_tool ag tool_name params tt).success = false ∧
      ∃ m, (execute_tool ag tool_name params tt).error = some m ∧
        ∀ n ∈ ag.registry.list_tools none, ∃ a b, m = a ++ (n ++ b)) ∧
    (∀ t msg, ag.registry.get_tool tool_name = some t →
      t.run (params.getD []) = ToolOutcome.raises msg →
      (execute_tool ag tool_name params tt).success = false ∧
      (execute_tool ag tool_name params tt).error =
        some ("Tool execution failed: " ++ msg)) := by
  constructor
  · intro hnone
    refine ⟨by simp [execute_tool, hinit, hnone],
      notFoundMsg tool_name (ag.registry.list_tools none),
      by simp [execute_tool, hinit, hnone],
      fun n hn => notFoundMsg_mem tool_name _ n hn⟩
  · intro t msg hget hrun
    exact ⟨by simp [execute_tool, hinit, hget, hrun],
      by simp [execute_tool, hinit, hget, hrun]⟩

/-- Witness for C2 at a concrete agent: the unknown name `"zz"` and the
raising tool `"b"`. -/
theorem execute_tool_inband_errors_witness :
    ((execute_tool demoAgent "zz" none "30.0").success = false ∧
      ∃ m, (execute_tool demoAgent "zz" none "30.0").error = some m ∧
        ∀ n ∈ demoAgent.registry.list_tools none, ∃ a b, m = a ++ (n ++ b)) ∧
    ((execute_tool demoAgent "b" none "30.0").success = false ∧
      (execute_tool demoAgent "b" none "30.0").error =
        some ("Tool execution failed: " ++ "boom")) :=
  ⟨(execute_tool_inband_errors demoAgent "zz" none "30.0" rfl).1 rfl,
    (execute_tool_inband_errors demoAgent "b" none "30.0" rfl).2
      raisingTool "boom" rfl rfl⟩

/-- C3: result normalization of `execute_tool`.  Structured case (the
value exposes an `output` attribute): success holds exactly when the
`error` attribute is absent or `None`; data is the `output` value; the
returned error is the `error` attribute's value (absent attribute gives
`None`).  Raw case: unconditional success with the raw value as data. -/
theorem result_shape_normalization (ag : SpoonOSAgent Tool) (tool_name : String)
    (params : Option (PyDict PyValue)) (tt : String) (t : Tool)
    (hinit : ag.initialized = true)
    (hget : ag.registry.get_tool tool_name = some t) :
    (∀ out errAttr,
      t.run (params.getD []) = ToolOutcome.ok (PyResult.structured out errAttr) →
      ((execute_tool ag tool_name params tt).success = true ↔
        (errAttr = none ∨ errAttr = some none)) ∧
      (execute_tool ag tool_name params tt).data = out ∧
      (execute_tool ag tool_name params tt).error = errAttr.join) ∧
    (∀ v, t.run (params.getD []) = ToolOutcome.ok (PyResult.raw v) →
      (execute_tool ag tool_name params tt).success = true ∧
      (execute_tool ag tool_name params tt).data = v ∧
      (execute_tool ag tool_name params tt).error = none) := by
  constructor
  · intro out errAttr hrun
    simp only [execute_tool, hinit, Bool.true_eq_false, if_false, hget, hrun]
    rcases errAttr with _ | e
    · simp [Option.join]
    · rcases e with _ | s <;> simp [Option.join]
  · intro v hrun
    exact ⟨by simp [execute_tool, hinit, hget, hrun],
      by simp [execute_tool, hinit, hget, hrun],
      by simp [execute_tool, hinit, hget, hrun]⟩

/-- Witness for C3 at the structured-result fixture tool. -/
theorem result_shape_normalization_witness :
    ((execute_tool demoAgent "s" none "30.0").success = true ↔
      ((some none : Option (Option String)) = none ∨
        (some none : Option (Option String)) = some none)) ∧
    (execute_tool demoAgent "s" none "30.0").data = PyValue.pyStr "42" ∧
    (execute_tool demoAgent "s" none "30.0").error =
      (some none : Option (Option String)).join :=
  (result_shape_normalization demoAgent "s" none "30.0" structTool rfl rfl).1
    (PyValue.pyStr "42") (some none) rfl

/-- C4: after any sequence of `register_tool` calls, `get_tool` returns
the instance of the most recent registration under the name, and every
category in which the name was registered lists it exactly once. -/
theorem registry_last_write_wins {α : Type} (l1 l2 : List (RegEvent α))
    (e : RegEvent α) (h2 : ∀ e2 ∈ l2, e2.name ≠ e.name) :
    (applyEvents (ToolRegistry.empty : ToolRegistry α) (l1 ++ e :: l2)).get_tool e.name
      = some e.inst ∧
    ∀ c : ToolCategory,
      (∃ e2 ∈ l1 ++ e :: l2, e.name = e2.name ∧ c = e2.cat) →
      ((applyEvents (ToolRegistry.empty : ToolRegistry α) (l1 ++ e :: l2)).categories c).count e.name = 1 := by
  constructor
  · rw [applyEvents_append, applyEvents_cons,
      get_tool_applyEvents_of_not_named _ _ _ h2, get_tool_register_self]
  · intro c hex
    have hmem : e.name ∈ (applyEvents (ToolRegistry.empty : ToolRegistry α) (l1 ++ e :: l2)).categories c :=
      (mem_categories_applyEvents _ _ _ _).mpr (Or.inr hex)
    have hnd := nodup_categories_applyEvents (ToolRegistry.empty : ToolRegistry α)
      (l1 ++ e :: l2) c (by simp [ToolRegistry.empty])
    exact List.count_eq_one_of_mem hnd hmem

/-- Witness for C4: register `"t"` twice in the same category; lookup
yields the second instance and the category lists `"t"` once. -/
theorem registry_last_write_wins_witness :
    (applyEvents (ToolRegistry.empty : ToolRegistry Nat)
      ([⟨"t", 1, ToolCategory.CRYPTO_DATA⟩] ++ ⟨"t", 2, ToolCategory.CRYPTO_DATA⟩ :: [])).get_tool "t"
      = some 2 ∧
    ((applyEvents (ToolRegistry.empty : ToolRegistry Nat)
      ([⟨"t", 1, ToolCategory.CRYPTO_DATA⟩] ++ ⟨"t", 2, ToolCategory.CRYPTO_DATA⟩ :: [])).categories
      ToolCategory.CRYPTO_DATA).count "t" = 1 := by
  have h := registry_last_write_wins [⟨"t", 1, ToolCategory.CRYPTO_DATA⟩] []
    (⟨"t", 2, ToolCategory.CRYPTO_DATA⟩ : RegEvent Nat) (by simp)
  exact ⟨h.1, h.2 ToolCategory.CRYPTO_DATA
    ⟨⟨"t", 2, ToolCategory.CRYPTO_DATA⟩,
      List.mem_append_right _ (List.mem_cons_self _ _), rfl, rfl⟩⟩

/-- C9 counterexample: re-registering `"t"` under a different category
leaves it in both categories' lists, so a tool name does not belong to
exactly one category. -/
theorem single_category_cex :
    "t" ∈ ((applyEvents (ToolRegistry.empty : ToolRegistry Nat)
      [⟨"t", 1, ToolCategory.CRYPTO_DATA⟩, ⟨"t", 2, ToolCategory.GITHUB⟩]).categories
      ToolCategory.CRYPTO_DATA) ∧
    "t" ∈ ((applyEvents (ToolRegistry.empty : ToolRegistry Nat)
      [⟨"t", 1, ToolCategory.CRYPTO_DATA⟩, ⟨"t", 2, ToolCategory.GITHUB⟩]).categories
      ToolCategory.GITHUB) := by
  constructor <;> decide

/-- C9 amended: after every sequence of `register_tool` calls, each tool
name appears at most once in each single category's list; a name
re-registered under a different category stays in the previous
category's list as well, so it may belong to several categories. -/
theorem category_count_le_one {α : Type} (evs : List (RegEvent α))
    (c : ToolCategory) (n : String) :
    ((applyEvents (ToolRegistry.empty : ToolRegistry α) evs).categories c).count n ≤ 1 :=
  List.nodup_iff_count_le_one.mp
    (nodup_categories_applyEvents (ToolRegistry.empty : ToolRegistry α) evs c
      (by simp [ToolRegistry.empty])) n

/-- Environment for the C1 counterexample: the crypto-data provider
succeeds, the EVM category raises a non-ImportError during registration,
the Neo provider would succeed. -/
def envC1 : ToolProviders Nat :=
  ⟨fun c =>
    match c with
    | ToolCategory.CRYPTO_DATA => ProviderResult.avail [("get_token_price", 1)]
    | ToolCategory.CRYPTO_EVM => ProviderResult.raisesAfter []
    | ToolCategory.CRYPTO_NEO => ProviderResult.avail [("neo_validate_address", 2)]
    | _ => ProviderResult.importError⟩

/-- C1 counterexample: with requested categories [crypto-data, EVM, Neo]
where the EVM category's registration raises, `initialize` does NOT
transition to Initialized, the succeeding later category's tools are NOT
in the registry, and the failure propagates — refuting the claim that a
category-level failure is caught and the remaining categories still
register. -/
theorem category_failure_aborts_cex :
    (initializeAgent envC1 (SpoonOSAgent.new : SpoonOSAgent Nat)
      (some [ToolCategory.CRYPTO_DATA, ToolCategory.CRYPTO_EVM,
        ToolCategory.CRYPTO_NEO])).1.initialized = false ∧
    (initializeAgent envC1 (SpoonOSAgent.new : SpoonOSAgent Nat)
      (some [ToolCategory.CRYPTO_DATA, ToolCategory.CRYPTO_EVM,
        ToolCategory.CRYPTO_NEO])).1.registry.get_tool "neo_validate_address" = none ∧
    (initializeAgent envC1 (SpoonOSAgent.new : SpoonOSAgent Nat)
      (some [ToolCategory.CRYPTO_DATA, ToolCategory.CRYPTO_EVM,
        ToolCategory.CRYPTO_NEO])).2 = true :=
  ⟨rfl, rfl, rfl⟩

/-- C1 amended: if a requested category's registration raises (import
failures of the optional categories are swallowed and do not raise),
`initialize` propagates the failure and does not transition the executor
to Initialized; the tools of the categories processed before the failing
one remain in the registry; the categories after it are not attempted. -/
theorem category_failure_aborts {α : Type} (env : ToolProviders α)
    (a : SpoonOSAgent α) (pre post : List ToolCategory) (c : ToolCategory)
    (h0 : a.initialized = false)
    (hpre : ∀ c2 ∈ pre, categoryRaises env c2 = false)
    (hc : categoryRaises env c = true) :
    (initializeAgent env a (some (pre ++ c :: post))).2 = true ∧
    (initializeAgent env a (some (pre ++ c :: post))).1.initialized = false ∧
    ∀ n, ((initializeLoop env pre a.registry).1.get_tool n).isSome = true →
      ((initializeAgent env a (some (pre ++ c :: post))).1.registry.get_tool n).isSome
        = true := by
  have hne : (pre ++ c :: post).isEmpty = false := by simp
  have hloop : initializeLoop env (pre ++ c :: post) a.registry =
      ((register_category_tools env c (initializeLoop env pre a.registry).1).1, true) := by
    rw [initializeLoop_append_no_raise env pre (c :: post) a.registry hpre,
      initializeLoop_head_raise env c post _ hc]
  unfold initializeAgent
  rw [if_neg (by simp [h0])]
  simp only [hne, Bool.false_eq_true, if_false, hloop]
  exact ⟨rfl, rfl, fun n hn => get_tool_register_category_isSome env c _ n hn⟩

/-- Witness for the amended C1 at the concrete environment: the EVM
category raises after crypto-data succeeded; the failure propagates, the
agent is not initialized, and crypto-data's tool is still registered. -/
theorem category_failure_aborts_witness :
    (initializeAgent envC1 (SpoonOSAgent.new : SpoonOSAgent Nat)
      (some ([ToolCategory.CRYPTO_DATA] ++ ToolCategory.CRYPTO_EVM ::
        [ToolCategory.CRYPTO_NEO]))).2 = true ∧
    (initializeAgent envC1 (SpoonOSAgent.new : SpoonOSAgent Nat)
      (some ([ToolCategory.CRYPTO_DATA] ++ ToolCategory.CRYPTO_EVM ::
        [ToolCategory.CRYPTO_NEO]))).1.initialized = false ∧
    ((initializeAgent envC1 (SpoonOSAgent.new : SpoonOSAgent Nat)
      (some ([ToolCategory.CRYPTO_DATA] ++ ToolCategory.CRYPTO_EVM ::
        [ToolCategory.CRYPTO_NEO]))).1.registry.get_tool "get_token_price").isSome
      = true := by
  have h := category_failure_aborts envC1 (SpoonOSAgent.new : SpoonOSAgent Nat)
    [ToolCategory.CRYPTO_DATA] [ToolCategory.CRYPTO_NEO] ToolCategory.CRYPTO_EVM
    rfl (by decide) rfl
  exact ⟨h.1, h.2.1, h.2.2 "get_token_price" rfl⟩

theorem initializeAgent_of_initialized {α : Type} (env : ToolProviders α)
    (b : SpoonOSAgent α) (cats : Option (List ToolCategory))
    (h : b.initialized = true) : initializeAgent env b cats = (b, false) := by
  unfold initializeAgent
  rw [if_pos h]

/-- C5: initialization is idempotent — after a first call that completed
without raising on a fresh agent, a second call with the same categories
returns immediately (warning only), raises nothing, and leaves the whole
agent state (hence the registered tool set) unchanged. -/
theorem initialization_idempotent {α : Type} (env : ToolProviders α)
    (a : SpoonOSAgent α) (cats : Option (List ToolCategory))
    (h0 : a.initialized = false)
    (h1 : (initializeAgent env a cats).2 = false) :
    initializeAgent env (initializeAgent env a cats).1 cats =
      ((initializeAgent env a cats).1, false) := by
  have h2 : (initializeAgent env a cats).1.initialized = true := by
    unfold initializeAgent at h1 ⊢
    rw [if_neg (by simp [h0])] at h1 ⊢
    dsimp only at h1 ⊢
    split at h1
    · simp at h1
    · next hcond => rw [if_neg hcond]
  exact initializeAgent_of_initialized env _ cats h2

/-- Witness for C5: a fresh agent initialized once with the default
category under an all-available environment. -/
theorem initialization_idempotent_witness :
    initializeAgent (⟨fun _ => ProviderResult.avail [("x", 7)]⟩ : ToolProviders Nat)
      (initializeAgent (⟨fun _ => ProviderResult.avail [("x", 7)]⟩ : ToolProviders Nat)
        SpoonOSAgent.new none).1 none =
    ((initializeAgent (⟨fun _ => ProviderResult.avail [("x", 7)]⟩ : ToolProviders Nat)
        SpoonOSAgent.new none).1, false) :=
  initialization_idempotent (⟨fun _ => ProviderResult.avail [("x", 7)]⟩ : ToolProviders Nat)
    SpoonOSAgent.new none rfl rfl

/-- C10: `initialize` with an explicitly empty category list behaves
identically to `initialize` with no categories: the falsy empty list is
replaced by the default, so both run exactly the single baseline
crypto-data category. -/
theorem empty_categories_default {α : Type} (env : ToolProviders α)
    (a : SpoonOSAgent α) :
    initializeAgent env a (some []) = initializeAgent env a none ∧
    initializeAgent env a none =
      initializeAgent env a (some [ToolCategory.CRYPTO_DATA]) :=
  ⟨rfl, rfl⟩

/-- C6: `execute_batch` returns one result per command in input order in
both sequential and parallel mode (slot `i` always holds command `i`'s
result, so a failure never aborts or displaces the others); concretely,
for three commands [A, B, C] where B's tool raises and A, C succeed, both
modes return 3 results with the failed one at index 1. -/
theorem batch_order_preserved (ag : SpoonOSAgent Tool)
    (commands : List BatchCommand) (parallel : Bool) :
    ((execute_batch ag commands parallel).length = commands.length ∧
     ∀ i : Nat, (execute_batch ag commands parallel)[i]? =
       (commands[i]?).map (fun cmd =>
         execute_tool ag cmd.tool_name cmd.parameters cmd.timeoutText)) ∧
    (∀ par : Bool,
      (execute_batch demoAgent
        [⟨"a", none, "30.0"⟩, ⟨"b", none, "30.0"⟩, ⟨"s", none, "30.0"⟩] par).length = 3 ∧
      ((execute_batch demoAgent
        [⟨"a", none, "30.0"⟩, ⟨"b", none, "30.0"⟩, ⟨"s", none, "30.0"⟩] par)[1]?).map
          ToolExecutionResult.success = some false ∧
      ((execute_batch demoAgent
        [⟨"a", none, "30.0"⟩, ⟨"b", none, "30.0"⟩, ⟨"s", none, "30.0"⟩] par)[0]?).map
          ToolExecutionResult.success = some true ∧
      ((execute_batch demoAgent
        [⟨"a", none, "30.0"⟩, ⟨"b", none, "30.0"⟩, ⟨"s", none, "30.0"⟩] par)[2]?).map
          ToolExecutionResult.success = some true) := by
  have hmap : ∀ (b : Bool), execute_batch ag commands b = commands.map (fun cmd =>
      execute_tool ag cmd.tool_name cmd.parameters cmd.timeoutText) := by
    intro b
    cases b with
    | true => rfl
    | false =>
      show commands.foldl _ [] = _
      rw [foldl_append_eq_map]
      exact List.nil_append _
  refine ⟨⟨by rw [hmap]; exact List.length_map _ _,
    fun i => by rw [hmap]; exact List.getElem?_map _ _ _⟩, ?_⟩
  intro par
  cases par with
  | true => exact ⟨rfl, rfl, rfl, rfl⟩
  | false => exact ⟨rfl, rfl, rfl, rfl⟩

/-- C7: for intent action "get_token_price" with parameters
{token: "ETH"}, the router resolves the price tool and the adapted
parameters are exactly {symbol: "ETH-USDC"} with no token key. -/
theorem parameter_adaptation_eth :
    map_intent_to_tool "get_token_price" = "get_token_price" ∧
    prepare_tool_parameters ⟨"get_token_price", [("token", "ETH")], ""⟩
      "get_token_price" = [("symbol", "ETH-USDC")] ∧
    dictContains (prepare_tool_parameters ⟨"get_token_price", [("token", "ETH")], ""⟩
      "get_token_price") "token" = false :=
  ⟨rfl, rfl, rfl⟩

/-- C8: whenever the tool layer is unavailable or never initialized
(`is_connected` false or no agent), `send_intent` returns a response with
success=true whose output ends with the fixed fallback disclaimer and
which carries at least one follow-up prompt. -/
theorem fallback_labeling (integ : SpoonOSIntegration) (intent : Intent)
    (h : integ.is_connected = false ∨ integ.agent = none) :
    (send_intent integ intent).success = true ∧
    (∃ s, (send_intent integ intent).output = s ++ fallbackDisclaimer) ∧
    1 ≤ ((send_intent integ intent).follow_up_questions.getD []).length := by
  have hcond : (!integ.is_connected || integ.agent.isNone) = true := by
    rcases h with h | h <;> simp [h]
  rw [send_intent, if_pos hcond]
  exact ⟨rfl, ⟨fallback_output_core intent, rfl⟩, Nat.le_refl 1⟩

/-- Witness for C8: a never-connected integration layer. -/
theorem fallback_labeling_witness :
    (send_intent ⟨none, false⟩ ⟨"get_token_price", [], ""⟩).success = true ∧
    (∃ s, (send_intent ⟨none, false⟩ ⟨"get_token_price", [], ""⟩).output =
      s ++ fallbackDisclaimer) ∧
    1 ≤ ((send_intent ⟨none, false⟩
      ⟨"get_token_price", [], ""⟩).follow_up_questions.getD []).length :=
  fallback_labeling ⟨none, false⟩ ⟨"get_token_price", [], ""⟩ (Or.inl rfl)

end Tooly
